import Mathlib

/-
Verification of the training/evaluation script
`src/fine-tunning/lora/lora-peft-confusion-matrix.py`.

The script is shallowly embedded at two complementary levels:

1. A numeric level: the accuracy-metric accumulator (`evaluate.load("accuracy")`,
   whose `add_batch`/`compute` lifecycle appends prediction/reference pairs and
   on `compute` returns `accuracy_score(references, predictions)` and clears the
   state), the per-epoch test loop (script lines 156-182), the final eval loop
   (lines 184-204), and sklearn's `confusion_matrix` (line 207), which indexes
   its cells by the ascending sorted list of distinct labels occurring in
   `y_true` or `y_pred`.

2. A control-flow/trace level: the script's top-level sequence of observable
   effects (usage print and exit on short argv, the three parquet reads, the
   training loop, the csv/png/json writes), parameterised by a file-existence
   oracle and a fault oracle, reflecting that every exception is fatal and
   nothing is retried.

Machine integers do not overflow in the modelled fragment (Python ints are
unbounded), so labels are `Int` and counts are `Nat`; the accuracy value is a
rational.
-/

namespace TextGrader

/-! ### Fixed configuration constants (script lines 38-47) -/

def batch_size : ℕ := 5

def num_epochs : ℕ := 5

def lora_n_labels : ℕ := 33

def tokenizer_max_length : ℕ := 512

/-! ### sklearn confusion matrix (script line 207)

`sklearn.metrics.confusion_matrix(y_true, y_pred)` with no `labels` argument
determines its index set as the ascending sorted list of distinct values
occurring in `y_true` or `y_pred`; cell (i, j) counts the samples whose true
label is the i-th class and whose predicted label is the j-th class. -/

def observedClasses (yTrue yPred : List ℤ) : List ℤ :=
  List.insertionSort (· ≤ ·) ((yTrue ++ yPred).dedup)

def pairCount (yTrue yPred : List ℤ) (t p : ℤ) : ℕ :=
  (yTrue.zip yPred).countP (fun x => x.1 == t && x.2 == p)

def confusion_matrix (yTrue yPred : List ℤ) : List (List ℕ) :=
  (observedClasses yTrue yPred).map (fun t =>
    (observedClasses yTrue yPred).map (fun p => pairCount yTrue yPred t p))

def traceCM (m : List (List ℕ)) : ℕ :=
  ((List.range m.length).map (fun i => (m.getD i []).getD i 0)).sum

/-! ### The accuracy metric accumulator (`evaluate.load("accuracy")`, line 73)

`metric.add_batch(predictions=..., references=...)` appends both lists;
`metric.compute()` returns `accuracy_score(y_true=references, y_pred=predictions)`
(= number of index-aligned matching pairs divided by the number of references)
and clears the accumulated state. The single `metric` object is shared by the
per-epoch test phase and the final eval phase. -/

def accuracyScore (predictions references : List ℤ) : ℚ :=
  (((references.zip predictions).countP (fun x => x.1 == x.2) : ℕ) : ℚ) /
    ((references.length : ℕ) : ℚ)

structure MetricState where
  preds : List ℤ
  refs : List ℤ
deriving DecidableEq

def MetricState.empty : MetricState := ⟨[], []⟩

def MetricState.add_batch (s : MetricState) (p r : List ℤ) : MetricState :=
  ⟨s.preds ++ p, s.refs ++ r⟩

def MetricState.compute (s : MetricState) : ℚ × MetricState :=
  (accuracyScore s.preds s.refs, MetricState.empty)

/-- A batch yielded by a dataloader pass, abstracted to the model's predicted
labels and the batch's reference labels (`batch["labels"]`). -/
def LabelBatch : Type := List ℤ × List ℤ

def addBatches (s : MetricState) (bs : List LabelBatch) : MetricState :=
  bs.foldl (fun t b => t.add_batch b.1 b.2) s

def batchesPreds (bs : List LabelBatch) : List ℤ :=
  (bs.map Prod.fst).flatten

def batchesRefs (bs : List LabelBatch) : List ℤ :=
  (bs.map Prod.snd).flatten

/-! ### The epoch loop (script lines 156-182)

For each epoch `0 ≤ e < num_epochs`, after the gradient updates the test
dataloader is iterated; every batch is fed to `metric.add_batch`, then
`results["metrics"][epoch] = metric.compute()`. The model changes every epoch,
so the predictions on the test set are a function of the epoch index. -/

def epochLoop (numEpochs : ℕ) (testBatches : ℕ → List LabelBatch) :
    List (ℕ × ℚ) × MetricState :=
  (List.range numEpochs).foldl
    (fun acc e =>
      let s := addBatches acc.2 (testBatches e)
      let c := s.compute
      (acc.1 ++ [(e, c.1)], c.2))
    ([], MetricState.empty)

/-! ### The final eval phase (script lines 184-204)

Each eval batch extends `all_predictions` and `all_references` and is also fed
to the shared `metric`; then `results["validation_metric"] = metric.compute()`
and the confusion matrix is built as
`confusion_matrix(all_references, all_predictions)`. -/

def evalFold (s : MetricState) (bs : List LabelBatch) :
    List ℤ × List ℤ × MetricState :=
  bs.foldl
    (fun acc b => (acc.1 ++ b.1, acc.2.1 ++ b.2, acc.2.2.add_batch b.1 b.2))
    ([], [], s)

structure RunSummary where
  metrics : List (ℕ × ℚ)
  validation_metric : ℚ
  cm : List (List ℕ)
  eval_size : ℕ

def runPipeline (numEpochs : ℕ) (testBatches : ℕ → List LabelBatch)
    (evalBatches : List LabelBatch) : RunSummary :=
  let ls := epochLoop numEpochs testBatches
  let ev := evalFold ls.2 evalBatches
  let c := MetricState.compute ev.2.2
  { metrics := ls.1
    validation_metric := c.1
    cm := confusion_matrix ev.2.1 ev.1
    eval_size := ev.2.1.length }

/-! ### Tokenization (script lines 76-98)

`tokenize` calls the tokenizer with `truncation=True, max_length=512`, i.e. the
token sequence is cut to at most 512 tokens; `Dataset.map(..., batched=True,
remove_columns=["texto", "nota"])` drops the `texto` and `nota` columns and adds
the tokenizer's output columns (`input_ids`, `attention_mask`); every other
column of the parquet file (in particular `labels`, read by the training loop
at line 173) is carried through unchanged. A record is an association list from
column name to value; the tokenizer itself is an opaque text-to-token-ids
function supplied as a parameter. -/

inductive Field where
  | str (s : String)
  | int (n : ℤ)
  | ids (l : List ℕ)
deriving DecidableEq

abbrev Record : Type := List (String × Field)

def removed_columns : List String := ["texto", "nota"]

def getText (r : Record) : String :=
  match List.lookup "texto" r with
  | some (Field.str s) => s
  | _ => ""

def tokenizerOutput (tok : String → List ℕ) (texto : String) :
    List (String × Field) :=
  [("input_ids", Field.ids ((tok texto).take tokenizer_max_length)),
   ("attention_mask",
     Field.ids (((tok texto).take tokenizer_max_length).map (fun _ => 1)))]

def tokenizeRecord (tok : String → List ℕ) (r : Record) : Record :=
  r.filter (fun c => decide (c.1 ∉ removed_columns)) ++
    tokenizerOutput tok (getText r)

/-! ### Dataloader iteration order (script lines 107-124)

`DataLoader(..., shuffle=True)` uses a random sampler: each pass (epoch) draws
a fresh permutation of the record indices from the generator stream;
`shuffle=False` uses a sequential sampler that always yields `0, 1, ..., n-1`.
The generator's per-epoch draws are abstracted as a function from the epoch
index to the drawn index list, constrained to be a permutation of the index
range. The script sets `shuffle=True` for the train dataloader and
`shuffle=False` for the test and eval dataloaders. -/

def dataLoaderOrder (shuffle : Bool) (draw : ℕ → List ℕ) (n : ℕ) (epoch : ℕ) :
    List ℕ :=
  if shuffle then draw epoch else List.range n

def train_dataloader_order (draw : ℕ → List ℕ) (n : ℕ) (epoch : ℕ) : List ℕ :=
  dataLoaderOrder true draw n epoch

def test_dataloader_order (draw : ℕ → List ℕ) (n : ℕ) (epoch : ℕ) : List ℕ :=
  dataLoaderOrder false draw n epoch

def eval_dataloader_order (draw : ℕ → List ℕ) (n : ℕ) (epoch : ℕ) : List ℕ :=
  dataLoaderOrder false draw n epoch

/-! ### Timestamp and output paths (script lines 209-234)

`datetime.now().strftime` with the day-month-year-hour-minute pattern produces
a zero-padded timestamp with no seconds component; the JSON summary is written
with `json.dump(results, f, indent=4)` to
`results/` ++ timestamp ++ `-conjunto` ++ id ++ `-` ++ epochs ++ `-epochs.json`. -/

def pad2 (n : ℕ) : String :=
  if n < 10 then "0" ++ toString n else toString n

def pad4 (n : ℕ) : String :=
  if n < 10 then "000" ++ toString n
  else if n < 100 then "00" ++ toString n
  else if n < 1000 then "0" ++ toString n
  else toString n

structure Moment where
  day : ℕ
  month : ℕ
  year : ℕ
  hour : ℕ
  minute : ℕ
  second : ℕ

def strftime_d_m_Y_H_M (t : Moment) : String :=
  pad2 t.day ++ "-" ++ pad2 t.month ++ "-" ++ pad4 t.year ++ "-" ++
    pad2 t.hour ++ "-" ++ pad2 t.minute

def jsonSummaryPath (today conjunto : String) (epochs : ℕ) : String :=
  "results/" ++ today ++ "-conjunto" ++ conjunto ++ "-" ++ toString epochs ++
    "-epochs.json"

def csvOutPath (conjunto : String) (epochs : ℕ) : String :=
  "results/confusion_matrix_" ++ conjunto ++ "_" ++ toString epochs ++
    "_epochs.csv"

def pngOutPath (conjunto : String) (epochs : ℕ) : String :=
  "results/confusion_matrix_" ++ conjunto ++ "_" ++ toString epochs ++
    "_epochs.png"

def json_dump_indent : ℕ := 4

/-! ### Top-level control flow as a trace of observable effects

The script is a straight line: argv check (lines 26-34; note `sys.exit()` is
called with no argument, which raises `SystemExit(None)` and terminates the
process with exit status 0), three `load_dataset` calls (lines 63-71) that
raise if the parquet file is absent, tokenization and model assembly, the
training/test loop (lines 156-182), the eval loop (lines 184-204), and the
csv/png/json writes (lines 209-234). Every exception is fatal: nothing is
caught, so execution after a raise is void. `fs` tells which files exist and
`fault` tells at which stage an exception (e.g. out-of-memory) is thrown. -/

def usageMessage : String := "Uso: python meu_script.py <conjunto> <obs-opcional>"

def trainParquetPath (conjunto : String) : String :=
  "preprocessing/train_conjunto_" ++ conjunto ++ "_output.parquet"

def testParquetPath (conjunto : String) : String :=
  "preprocessing/test_conjunto_" ++ conjunto ++ "_output.parquet"

def evalParquetPath (conjunto : String) : String :=
  "preprocessing/eval_conjunto_" ++ conjunto ++ "_output.parquet"

inductive Stage where
  | loadTrain
  | loadTest
  | loadEval
  | tokenizeData
  | assembleModel
  | trainLoop
  | evalLoop
  | writeCsv
  | writePng
  | writeJson
deriving DecidableEq

inductive FileKind where
  | csv
  | png
  | jsonSummary
deriving DecidableEq

inductive Effect where
  | printed (s : String)
  | exited (code : ℕ)
  | fileRead (path : String)
  | trainStep
  | raised (st : Stage)
  | fileWrite (kind : FileKind) (path : String)
deriving DecidableEq

def scriptRunBody (fs : String → Bool) (fault : Stage → Bool)
    (c today : String) : List Effect :=
  if !fs (trainParquetPath c) || fault .loadTrain then [.raised .loadTrain]
  else if !fs (testParquetPath c) || fault .loadTest then
    [.fileRead (trainParquetPath c), .raised .loadTest]
  else if !fs (evalParquetPath c) || fault .loadEval then
    [.fileRead (trainParquetPath c), .fileRead (testParquetPath c),
      .raised .loadEval]
  else
    [.fileRead (trainParquetPath c), .fileRead (testParquetPath c),
      .fileRead (evalParquetPath c)] ++
    (if fault .tokenizeData then [.raised .tokenizeData]
     else if fault .assembleModel then [.raised .assembleModel]
     else if fault .trainLoop then [.raised .trainLoop]
     else [.trainStep] ++
       (if fault .evalLoop then [.raised .evalLoop]
        else if fault .writeCsv then [.raised .writeCsv]
        else [.fileWrite .csv (csvOutPath c num_epochs)] ++
          (if fault .writePng then [.raised .writePng]
           else [.fileWrite .png (pngOutPath c num_epochs)] ++
             (if fault .writeJson then [.raised .writeJson]
              else [.fileWrite .jsonSummary
                      (jsonSummaryPath today c num_epochs)]))))

def scriptRun (fs : String → Bool) (fault : Stage → Bool) (argv : List String)
    (today : String) : List Effect :=
  if argv.length < 2 then [.printed usageMessage, .exited 0]
  else scriptRunBody fs fault (argv.getD 1 "") today

/-! #### Structural lemmas about the accumulator and the loops -/

theorem addBatches_eq (s : MetricState) (bs : List LabelBatch) :
    addBatches s bs = ⟨s.preds ++ batchesPreds bs, s.refs ++ batchesRefs bs⟩ := by
  induction bs generalizing s with
  | nil => simp [addBatches, batchesPreds, batchesRefs]
  | cons b l ih =>
      simp only [addBatches, List.foldl_cons] at *
      rw [ih]
      simp [MetricState.add_batch, batchesPreds, batchesRefs]

theorem epochLoop_eq (numEpochs : ℕ) (testBatches : ℕ → List LabelBatch) :
    epochLoop numEpochs testBatches =
      ((List.range numEpochs).map (fun e =>
          (e, accuracyScore (batchesPreds (testBatches e))
                (batchesRefs (testBatches e)))),
        MetricState.empty) := by
  induction numEpochs with
  | zero => rfl
  | succ n ih =>
      simp only [epochLoop, List.range_succ, List.foldl_append, List.foldl_cons,
        List.foldl_nil, List.map_append, List.map_cons, List.map_nil] at *
      rw [ih]
      simp [addBatches_eq, MetricState.compute, MetricState.empty]

theorem evalFold_eq (s : MetricState) (bs : List LabelBatch) :
    evalFold s bs = (batchesPreds bs, batchesRefs bs, addBatches s bs) := by
  have h : ∀ (a b : List ℤ) (t : MetricState),
      bs.foldl
        (fun acc x => (acc.1 ++ x.1, acc.2.1 ++ x.2, acc.2.2.add_batch x.1 x.2))
        (a, b, t) =
      (a ++ batchesPreds bs, b ++ batchesRefs bs, addBatches t bs) := by
    induction bs with
    | nil => intro a b t; simp [batchesPreds, batchesRefs, addBatches]
    | cons x l ih =>
        intro a b t
        simp only [List.foldl_cons]
        rw [ih]
        simp [batchesPreds, batchesRefs, addBatches, List.foldl_cons]
  simpa [evalFold] using h [] [] s

/-! #### Counting lemmas for the confusion matrix -/

theorem observedClasses_nodup (yT yP : List ℤ) : (observedClasses yT yP).Nodup :=
  ((List.perm_insertionSort _ _).nodup_iff).2 ((yT ++ yP).nodup_dedup)

theorem mem_observedClasses {yT yP : List ℤ} {a : ℤ} :
    a ∈ observedClasses yT yP ↔ a ∈ yT ++ yP := by
  unfold observedClasses
  rw [(List.perm_insertionSort _ _).mem_iff, List.mem_dedup]

theorem observedClasses_length (yT yP : List ℤ) :
    (observedClasses yT yP).length = ((yT ++ yP).toFinset).card := by
  rw [List.card_toFinset]
  exact (List.perm_insertionSort _ _).length_eq

theorem sumMapAdd {α : Type} (l : List α) (f g : α → ℕ) :
    (l.map (fun x => f x + g x)).sum = (l.map f).sum + (l.map g).sum := by
  induction l with
  | nil => rfl
  | cons x t ih => simp [ih]; omega

theorem sum_map_indicator_zero (cls : List ℤ) (a : ℤ) (h : a ∉ cls) :
    (cls.map (fun c => if a = c then (1 : ℕ) else 0)).sum = 0 := by
  induction cls with
  | nil => rfl
  | cons x t ih =>
      have hx : ¬a = x := fun e => h (e ▸ List.mem_cons_self x t)
      have ht : a ∉ t := fun e => h (List.mem_cons_of_mem x e)
      simp [hx, ih ht]

theorem sum_map_indicator_one (cls : List ℤ) (a : ℤ) (hnd : cls.Nodup)
    (ha : a ∈ cls) :
    (cls.map (fun c => if a = c then (1 : ℕ) else 0)).sum = 1 := by
  induction cls with
  | nil => cases ha
  | cons x t ih =>
      rcases List.mem_cons.1 ha with h | h
      · have hnt : a ∉ t := h ▸ (List.nodup_cons.1 hnd).1
        subst h
        simp [sum_map_indicator_zero t a hnt]
      · have hx : ¬a = x := by
          intro e
          exact (List.nodup_cons.1 hnd).1 (e ▸ h)
        simp [hx, ih (List.nodup_cons.1 hnd).2 h]

theorem countP_classes_sum (cls : List ℤ) (hnd : cls.Nodup)
    (pairs : List (ℤ × ℤ)) (q : ℤ × ℤ → Bool) (f : ℤ × ℤ → ℤ)
    (hf : ∀ x ∈ pairs, q x = true → f x ∈ cls) :
    (cls.map (fun c => pairs.countP (fun x => q x && (f x == c)))).sum
      = pairs.countP q := by
  induction pairs with
  | nil => simp
  | cons x l ih =>
      have hf' : ∀ y ∈ l, q y = true → f y ∈ cls := fun y hy => hf y (List.mem_cons_of_mem x hy)
      simp only [List.countP_cons]
      rw [sumMapAdd, ih hf']
      by_cases hq : q x = true
      · have hm : f x ∈ cls := hf x (List.mem_cons_self x l) hq
        simp [hq, sum_map_indicator_one cls (f x) hnd hm]
      · simp [hq]

theorem countP_classes_sum_all (cls : List ℤ) (hnd : cls.Nodup)
    (pairs : List (ℤ × ℤ)) (f : ℤ × ℤ → ℤ) (hf : ∀ x ∈ pairs, f x ∈ cls) :
    (cls.map (fun c => pairs.countP (fun x => f x == c))).sum = pairs.length := by
  have h := countP_classes_sum cls hnd pairs (fun _ => true) f
    (fun x hx _ => hf x hx)
  simpa using h

theorem getD_map_of_lt {α β : Type} (f : α → β) (l : List α) (i : ℕ)
    (h : i < l.length) (d : β) (d0 : α) :
    (l.map f).getD i d = f (l.getD i d0) := by
  rw [List.getD_eq_getElem?_getD, List.getD_eq_getElem?_getD, List.getElem?_map,
    List.getElem?_eq_getElem h]
  rfl

theorem range_map_getD {α β : Type} (l : List α) (d : α) (g : α → β) :
    (List.range l.length).map (fun i => g (l.getD i d)) = l.map g := by
  induction l with
  | nil => rfl
  | cons x t ih =>
      rw [List.length_cons, List.range_succ_eq_map, List.map_cons, List.map_map]
      simp only [Function.comp_def, List.getD_cons_zero, List.getD_cons_succ]
      rw [ih, List.map_cons]

theorem confusion_matrix_inner_sum (yT yP : List ℤ) (t : ℤ) :
    ((observedClasses yT yP).map (fun p => pairCount yT yP t p)).sum
      = (yT.zip yP).countP (fun x => x.1 == t) := by
  apply countP_classes_sum (observedClasses yT yP) (observedClasses_nodup yT yP)
    (yT.zip yP) (fun x => x.1 == t) Prod.snd
  intro x hx _
  exact mem_observedClasses.2 (List.mem_append.2 (Or.inr (List.of_mem_zip hx).2))

theorem confusion_matrix_cells_sum (yT yP : List ℤ) :
    ((confusion_matrix yT yP).map List.sum).sum = (yT.zip yP).length := by
  unfold confusion_matrix
  rw [List.map_map]
  simp only [Function.comp_def, confusion_matrix_inner_sum]
  apply countP_classes_sum_all (observedClasses yT yP) (observedClasses_nodup yT yP)
    (yT.zip yP) Prod.fst
  intro x hx
  exact mem_observedClasses.2 (List.mem_append.2 (Or.inl (List.of_mem_zip hx).1))

theorem countP_fst_eq_count (yT yP : List ℤ) (hlen : yT.length = yP.length)
    (t : ℤ) :
    (yT.zip yP).countP (fun x => x.1 == t) = yT.count t := by
  have h1 : (yT.zip yP).map Prod.fst = yT := List.map_fst_zip yT yP (le_of_eq hlen)
  have h2 : ((yT.zip yP).map Prod.fst).countP (fun a => a == t)
      = (yT.zip yP).countP (fun x => x.1 == t) := by
    rw [List.countP_map]
    rfl
  rw [← h2, h1, List.count]

theorem confusion_matrix_row (yT yP : List ℤ) (i : ℕ)
    (hi : i < (observedClasses yT yP).length) :
    (confusion_matrix yT yP).getD i []
      = (observedClasses yT yP).map
          (fun p => pairCount yT yP ((observedClasses yT yP).getD i 0) p) := by
  unfold confusion_matrix
  rw [getD_map_of_lt _ _ _ hi _ 0]

theorem traceCM_confusion_matrix (yT yP : List ℤ) :
    traceCM (confusion_matrix yT yP) = (yT.zip yP).countP (fun x => x.1 == x.2) := by
  unfold traceCM
  have hlen : (confusion_matrix yT yP).length = (observedClasses yT yP).length := by
    simp [confusion_matrix]
  rw [hlen]
  have hmap : (List.range (observedClasses yT yP).length).map
      (fun i => ((confusion_matrix yT yP).getD i []).getD i 0)
      = (observedClasses yT yP).map (fun t => pairCount yT yP t t) := by
    have hcongr : ∀ i ∈ List.range (observedClasses yT yP).length,
        ((confusion_matrix yT yP).getD i []).getD i 0
          = pairCount yT yP ((observedClasses yT yP).getD i 0)
              ((observedClasses yT yP).getD i 0) := by
      intro i hi
      have hi' : i < (observedClasses yT yP).length := List.mem_range.1 hi
      rw [confusion_matrix_row yT yP i hi', getD_map_of_lt _ _ _ hi' _ 0]
    rw [List.map_congr_left hcongr]
    exact range_map_getD (observedClasses yT yP) 0 (fun t => pairCount yT yP t t)
  rw [hmap]
  have hsum := countP_classes_sum (observedClasses yT yP)
    (observedClasses_nodup yT yP) (yT.zip yP) (fun x => x.1 == x.2) Prod.fst
    (fun x hx _ => mem_observedClasses.2
      (List.mem_append.2 (Or.inl (List.of_mem_zip hx).1)))
  rw [← hsum]
  apply congrArg
  apply List.map_congr_left
  intro t _
  unfold pairCount
  apply List.countP_congr
  intro a _
  by_cases h1 : a.1 = t <;> by_cases h2 : a.2 = t <;> by_cases h3 : a.1 = a.2 <;>
    simp_all

set_option maxHeartbeats 4000000 in
theorem scriptRunBody_trainStep_mem (fs : String → Bool) (fault : Stage → Bool)
    (c today : String) :
    Effect.trainStep ∈ scriptRunBody fs fault c today →
      fs (trainParquetPath c) = true ∧ fs (testParquetPath c) = true ∧
      fs (evalParquetPath c) = true := by
  unfold scriptRunBody
  split_ifs <;> intro h <;> simp_all

set_option maxHeartbeats 4000000 in
theorem scriptRunBody_fileWrite_mem (fs : String → Bool) (fault : Stage → Bool)
    (c today : String) (k : FileKind) (p : String) :
    Effect.fileWrite k p ∈ scriptRunBody fs fault c today →
      fs (trainParquetPath c) = true ∧ fs (testParquetPath c) = true ∧
      fs (evalParquetPath c) = true := by
  unfold scriptRunBody
  split_ifs <;> intro h <;> simp_all

set_option maxHeartbeats 4000000 in
theorem scriptRunBody_jsonWrite_no_raise (fs : String → Bool)
    (fault : Stage → Bool) (c today : String) (p : String) :
    Effect.fileWrite .jsonSummary p ∈ scriptRunBody fs fault c today →
      ∀ st, Effect.raised st ∉ scriptRunBody fs fault c today := by
  intro h st hst
  unfold scriptRunBody at h hst
  split_ifs at h hst <;> simp_all

theorem lookup_append_of_keys_ne {β : Type} (l1 l2 : List (String × β))
    (k : String) (h : ∀ x ∈ l1, (k == x.1) = false) :
    List.lookup k (l1 ++ l2) = List.lookup k l2 := by
  induction l1 with
  | nil => rfl
  | cons x t ih =>
      obtain ⟨a, b⟩ := x
      have ha : (k == a) = false := h (a, b) (List.mem_cons_self _ _)
      simp only [List.cons_append, List.lookup, ha]
      exact ih (fun y hy => h y (List.mem_cons_of_mem _ hy))

/-! ## The claims -/

/-- C1: for every run configured with `epochs = E`, after the
training/evaluation loop the run summary's metrics record contains exactly `E`
entries, keyed by the integer epoch indices `0..E-1`, and each entry's accuracy
value lies in the closed interval `[0, 1]` (each test partition pass being
nonempty, as a division by the reference count is taken). -/
theorem C1_metrics_record (E : ℕ) (testBatches : ℕ → List LabelBatch)
    (hne : ∀ e, e < E → 0 < (batchesRefs (testBatches e)).length) :
    ((epochLoop E testBatches).1).length = E ∧
    ((epochLoop E testBatches).1).map Prod.fst = List.range E ∧
    (∀ m ∈ (epochLoop E testBatches).1, 0 ≤ m.2 ∧ m.2 ≤ 1) := by
  rw [epochLoop_eq]
  refine ⟨by simp, ?_, ?_⟩
  · rw [List.map_map]
    have h : (Prod.fst ∘ fun e : ℕ =>
        (e, accuracyScore (batchesPreds (testBatches e))
          (batchesRefs (testBatches e)))) = id := rfl
    rw [h, List.map_id]
  intro m hm
  simp only [List.mem_map, List.mem_range] at hm
  obtain ⟨e, he, rfl⟩ := hm
  unfold accuracyScore
  constructor
  · exact div_nonneg (Nat.cast_nonneg _) (Nat.cast_nonneg _)
  · rw [div_le_one (by exact_mod_cast hne e he)]
    have h1 : ((batchesRefs (testBatches e)).zip
        (batchesPreds (testBatches e))).countP (fun x => x.1 == x.2)
        ≤ (batchesRefs (testBatches e)).length := by
      refine le_trans (List.countP_le_length _) ?_
      rw [List.length_zip]
      exact min_le_left _ _
    exact_mod_cast h1

/-- C1 witness at a concrete two-epoch run. -/
theorem C1_metrics_record_witness :
    ((epochLoop 2 (fun _ => [([0], [0]), ([1], [2])])).1).length = 2 ∧
    ((epochLoop 2 (fun _ => [([0], [0]), ([1], [2])])).1).map Prod.fst
      = List.range 2 := by
  have h := C1_metrics_record 2 (fun _ => [([0], [0]), ([1], [2])])
    (fun e he =>
      (by decide : 0 < (batchesRefs [([0], [0]), ([1], [2])]).length))
  exact ⟨h.1, h.2.1⟩

/-- C2 (amended): the confusion matrix's cell `(i, j)` counts the eval records
whose true label is the i-th class and whose predicted label is the j-th class,
where the class list is the ascending sorted list of distinct observed labels;
the sum over all cells equals the number of eval records, and the sum of row
`i` equals the number of eval records whose true label is the i-th class. -/
theorem C2_confusion_matrix_counts (yT yP : List ℤ)
    (hlen : yT.length = yP.length) :
    ((confusion_matrix yT yP).map List.sum).sum = yT.length ∧
    (∀ i, i < (observedClasses yT yP).length →
      ((confusion_matrix yT yP).getD i []).sum
        = yT.count ((observedClasses yT yP).getD i 0)) ∧
    (∀ i j, i < (observedClasses yT yP).length →
      j < (observedClasses yT yP).length →
      ((confusion_matrix yT yP).getD i []).getD j 0
        = pairCount yT yP ((observedClasses yT yP).getD i 0)
            ((observedClasses yT yP).getD j 0)) := by
  refine ⟨?_, ?_, ?_⟩
  · rw [confusion_matrix_cells_sum, List.length_zip, hlen, min_self]
  · intro i hi
    rw [confusion_matrix_row yT yP i hi, confusion_matrix_inner_sum,
      countP_fst_eq_count yT yP hlen]
  · intro i j hi hj
    rw [confusion_matrix_row yT yP i hi, getD_map_of_lt _ _ _ hj _ 0]

/-- C2 counterexample: with eval references `[5]` and predictions `[5]` the
matrix is `[[1]]`, so entry `(0, 0)` is `1`, yet the number of records whose
true label is `0` and predicted label is `0` is `0` (and the row-`0` sum is
`1` while no record has true label `0`): cell indices are positions in the
sorted observed-class list, not label values. -/
theorem C2_confusion_matrix_counts_counterexample :
    ((confusion_matrix [5] [5]).getD 0 []).getD 0 0 = 1 ∧
    pairCount [5] [5] 0 0 = 0 ∧
    ((confusion_matrix [5] [5]).getD 0 []).sum = 1 ∧
    List.count 0 [(5 : ℤ)] = 0 := by decide

/-- C2 witness at concrete parallel lists of length 3. -/
theorem C2_confusion_matrix_counts_witness :
    ((confusion_matrix [0, 1, 1] [1, 1, 0]).map List.sum).sum = 3 ∧
    ((confusion_matrix [0, 1, 1] [1, 1, 0]).getD 0 []).sum
      = List.count ((observedClasses [0, 1, 1] [1, 1, 0]).getD 0 0)
          [(0 : ℤ), 1, 1] := by
  have h := C2_confusion_matrix_counts [0, 1, 1] [1, 1, 0] rfl
  exact ⟨h.1, h.2.1 0 (by decide)⟩

/-- C3 (amended): when the dataset identifier command-line argument is
omitted, the process prints the usage message and exits before any file I/O is
attempted, but with exit status 0 (`sys.exit()` is called with no argument,
which terminates the interpreter successfully), not a nonzero code. -/
theorem C3_usage_exit (fs : String → Bool) (fault : Stage → Bool)
    (argv : List String) (today : String) (h : argv.length < 2) :
    scriptRun fs fault argv today
      = [Effect.printed usageMessage, Effect.exited 0] ∧
    (∀ p, Effect.fileRead p ∉ scriptRun fs fault argv today) ∧
    (∀ k p, Effect.fileWrite k p ∉ scriptRun fs fault argv today) := by
  have he : scriptRun fs fault argv today
      = [Effect.printed usageMessage, Effect.exited 0] := by
    unfold scriptRun
    rw [if_pos h]
  refine ⟨he, ?_, ?_⟩ <;> intros <;> rw [he] <;> simp

/-- C3 counterexample: invoked with no dataset identifier, the only exit
effect in the trace carries code 0, so the process does not exit with a
nonzero exit code as claimed. -/
theorem C3_usage_exit_counterexample :
    Effect.printed usageMessage
      ∈ scriptRun (fun _ => true) (fun _ => false) ["meu_script.py"] "x" ∧
    Effect.exited 0
      ∈ scriptRun (fun _ => true) (fun _ => false) ["meu_script.py"] "x" ∧
    ¬ ∃ n, n ≠ 0 ∧ Effect.exited n
      ∈ scriptRun (fun _ => true) (fun _ => false) ["meu_script.py"] "x" := by
  have he : scriptRun (fun _ => true) (fun _ => false) ["meu_script.py"] "x"
      = [Effect.printed usageMessage, Effect.exited 0] := rfl
  refine ⟨by rw [he]; simp, by rw [he]; simp, ?_⟩
  rintro ⟨n, hn, hmem⟩
  rw [he] at hmem
  simp at hmem
  exact hn hmem

/-- C3 witness at a one-element argv. -/
theorem C3_usage_exit_witness :
    scriptRun (fun _ => false) (fun _ => false) ["meu_script.py"] "x"
      = [Effect.printed usageMessage, Effect.exited 0] :=
  (C3_usage_exit (fun _ => false) (fun _ => false) ["meu_script.py"] "x"
    (by decide)).1

/-- C4 (amended): the tokenization transform truncates the token sequence to
the fixed maximum length 512 and removes the `texto` and `nota` columns; the
transformed record keeps every other original column (in particular `labels`)
alongside the tokenizer-produced fields. -/
theorem C4_tokenize_transform (tok : String → List ℕ) (r : Record)
    (hno : ∀ x ∈ r, ¬x.1 = "input_ids") :
    "texto" ∉ (tokenizeRecord tok r).map Prod.fst ∧
    "nota" ∉ (tokenizeRecord tok r).map Prod.fst ∧
    List.lookup "input_ids" (tokenizeRecord tok r)
      = some (Field.ids ((tok (getText r)).take tokenizer_max_length)) ∧
    ((tok (getText r)).take tokenizer_max_length).length
      ≤ tokenizer_max_length := by
  have hkeep : ∀ k, k ∈ removed_columns →
      k ∉ (r.filter (fun c => decide (c.1 ∉ removed_columns))).map Prod.fst := by
    intro k hk hmem
    obtain ⟨x, hx, rfl⟩ := List.mem_map.1 hmem
    have h2 := (List.mem_filter.1 hx).2
    rw [decide_eq_true_eq] at h2
    exact h2 hk
  have hout : (tokenizerOutput tok (getText r)).map Prod.fst
      = ["input_ids", "attention_mask"] := rfl
  refine ⟨?_, ?_, ?_, ?_⟩
  · intro hmem
    unfold tokenizeRecord at hmem
    rw [List.map_append] at hmem
    rcases List.mem_append.1 hmem with h | h
    · exact hkeep "texto" (by decide) h
    · rw [hout] at h
      exact absurd h (by decide)
  · intro hmem
    unfold tokenizeRecord at hmem
    rw [List.map_append] at hmem
    rcases List.mem_append.1 hmem with h | h
    · exact hkeep "nota" (by decide) h
    · rw [hout] at h
      exact absurd h (by decide)
  · unfold tokenizeRecord
    rw [lookup_append_of_keys_ne]
    · rfl
    · intro x hx
      have hxr := (List.mem_filter.1 hx).1
      have := hno x hxr
      exact beq_eq_false_iff_ne.2 (fun e => this e.symm)
  · rw [List.length_take]
    exact min_le_left _ _

/-- C4 counterexample: a record with columns `texto`, `nota`, `labels` still
has the `labels` column after the transform, and `labels` is not a
tokenizer-produced field, so the transformed record does not consist only of
tokenizer-produced fields. -/
theorem C4_tokenize_transform_counterexample :
    "labels" ∈ (tokenizeRecord (fun _ => [3, 4, 5])
      [("texto", Field.str "abc"), ("nota", Field.int 5),
        ("labels", Field.int 2)]).map Prod.fst ∧
    "labels" ∉ (tokenizerOutput (fun _ => [3, 4, 5]) "abc").map Prod.fst := by
  decide

/-- C4 witness at a concrete record and tokenizer. -/
theorem C4_tokenize_transform_witness :
    "texto" ∉ (tokenizeRecord (fun _ => [3, 4, 5])
      [("texto", Field.str "abc"), ("nota", Field.int 5),
        ("labels", Field.int 2)]).map Prod.fst ∧
    "nota" ∉ (tokenizeRecord (fun _ => [3, 4, 5])
      [("texto", Field.str "abc"), ("nota", Field.int 5),
        ("labels", Field.int 2)]).map Prod.fst := by
  have h := C4_tokenize_transform (fun _ => [3, 4, 5])
    [("texto", Field.str "abc"), ("nota", Field.int 5),
      ("labels", Field.int 2)] (by decide)
  exact ⟨h.1, h.2.1⟩

/-- C5: the dimension of the produced confusion matrix equals the number of
distinct label values observed among the eval references and predictions, and
is not forced to the configured class count 33: whenever the observed labels
do not cover all configured classes, the matrix is smaller than 33. -/
theorem C5_matrix_dimension (yT yP : List ℤ) :
    (confusion_matrix yT yP).length = ((yT ++ yP).toFinset).card ∧
    (∀ row ∈ confusion_matrix yT yP,
      row.length = ((yT ++ yP).toFinset).card) ∧
    (((yT ++ yP).toFinset).card < lora_n_labels →
      (confusion_matrix yT yP).length < lora_n_labels) := by
  have hlen : (confusion_matrix yT yP).length = ((yT ++ yP).toFinset).card := by
    rw [← observedClasses_length]
    simp [confusion_matrix]
  refine ⟨hlen, ?_, fun h => hlen ▸ h⟩
  intro row hrow
  simp only [confusion_matrix, List.mem_map] at hrow
  obtain ⟨t, ht, rfl⟩ := hrow
  rw [← observedClasses_length]
  simp

/-- C5 witness: two observed labels give a 2-dimensional matrix, smaller than
the configured 33 classes. -/
theorem C5_matrix_dimension_witness :
    (confusion_matrix [0] [1]).length = ((([0] : List ℤ) ++ [1]).toFinset).card ∧
    (confusion_matrix [0] [1]).length < lora_n_labels :=
  ⟨(C5_matrix_dimension [0] [1]).1,
   (C5_matrix_dimension [0] [1]).2.2 (by decide)⟩

/-- C6: for parallel prediction/reference lists, applying the same
rearrangement to both (so that the multiset of index-aligned
reference/prediction pairs is unchanged) yields the same confusion matrix:
aggregation is order-independent. -/
theorem C6_order_independence (yT yP yT2 yP2 : List ℤ)
    (h1 : yT.length = yP.length) (h2 : yT2.length = yP2.length)
    (hperm : (yT.zip yP).Perm (yT2.zip yP2)) :
    confusion_matrix yT yP = confusion_matrix yT2 yP2 := by
  have hT : yT.Perm yT2 := by
    have h := hperm.map Prod.fst
    rwa [List.map_fst_zip yT yP (le_of_eq h1),
      List.map_fst_zip yT2 yP2 (le_of_eq h2)] at h
  have hP : yP.Perm yP2 := by
    have h := hperm.map Prod.snd
    rwa [List.map_snd_zip yT yP (le_of_eq h1.symm),
      List.map_snd_zip yT2 yP2 (le_of_eq h2.symm)] at h
  have hcls : observedClasses yT yP = observedClasses yT2 yP2 := by
    have hp : (observedClasses yT yP).Perm (observedClasses yT2 yP2) :=
      (List.perm_insertionSort _ _).trans
        (((hT.append hP).dedup).trans (List.perm_insertionSort _ _).symm)
    exact List.eq_of_perm_of_sorted hp
      (List.sorted_insertionSort _ _) (List.sorted_insertionSort _ _)
  unfold confusion_matrix
  rw [hcls]
  apply List.map_congr_left
  intro t _
  apply List.map_congr_left
  intro p _
  unfold pairCount
  exact hperm.countP_eq _

/-- C6 witness: consistent reversal of a concrete pair of parallel lists
leaves the confusion matrix unchanged. -/
theorem C6_order_independence_witness :
    confusion_matrix [0, 1] [1, 1] = confusion_matrix [1, 0] [1, 1] :=
  C6_order_independence [0, 1] [1, 1] [1, 0] [1, 1] rfl rfl (by decide)

/-- C7: if any of the three expected parquet files for the dataset identifier
is missing, the run fails before entering the training loop (no training step
occurs and nothing is written); and a run in which any stage raises writes no
JSON run summary. -/
theorem C7_failure_semantics (fs : String → Bool) (fault : Stage → Bool)
    (argv : List String) (today : String) :
    ((fs (trainParquetPath (argv.getD 1 "")) = false ∨
      fs (testParquetPath (argv.getD 1 "")) = false ∨
      fs (evalParquetPath (argv.getD 1 "")) = false) →
      Effect.trainStep ∉ scriptRun fs fault argv today ∧
      (∀ k p, Effect.fileWrite k p ∉ scriptRun fs fault argv today)) ∧
    ((∃ st, Effect.raised st ∈ scriptRun fs fault argv today) →
      (∀ p, Effect.fileWrite FileKind.jsonSummary p
        ∉ scriptRun fs fault argv today)) := by
  by_cases hl : argv.length < 2
  · have he : scriptRun fs fault argv today
        = [Effect.printed usageMessage, Effect.exited 0] := by
      unfold scriptRun
      rw [if_pos hl]
    constructor
    · intro _
      constructor
      · rw [he]
        simp
      · intro k p
        rw [he]
        simp
    · rintro ⟨st, hst⟩
      rw [he] at hst
      simp at hst
  · have he : scriptRun fs fault argv today
        = scriptRunBody fs fault (argv.getD 1 "") today := by
      unfold scriptRun
      rw [if_neg hl]
    rw [he]
    constructor
    · intro hmiss
      constructor
      · intro hmem
        obtain ⟨ha, hb, hc⟩ :=
          scriptRunBody_trainStep_mem fs fault (argv.getD 1 "") today hmem
        rcases hmiss with h | h | h <;> simp_all
      · intro k p hmem
        obtain ⟨ha, hb, hc⟩ :=
          scriptRunBody_fileWrite_mem fs fault (argv.getD 1 "") today k p hmem
        rcases hmiss with h | h | h <;> simp_all
    · rintro ⟨st, hst⟩ p hmem
      exact scriptRunBody_jsonWrite_no_raise fs fault (argv.getD 1 "") today
        p hmem st hst

/-- C7 witness: with the test parquet file absent, the run performs no
training step and writes no JSON summary. -/
theorem C7_failure_semantics_witness :
    Effect.trainStep ∉ scriptRun (fun p => !(p == testParquetPath "7"))
      (fun _ => false) ["meu_script.py", "7"] "01-01-2025-00-00" ∧
    Effect.fileWrite FileKind.jsonSummary
        (jsonSummaryPath "01-01-2025-00-00" "7" num_epochs)
      ∉ scriptRun (fun p => !(p == testParquetPath "7"))
          (fun _ => false) ["meu_script.py", "7"] "01-01-2025-00-00" := by
  have hm : (fun p => !(p == testParquetPath "7")) (testParquetPath "7")
      = false := by simp
  have h := (C7_failure_semantics (fun p => !(p == testParquetPath "7"))
    (fun _ => false) ["meu_script.py", "7"] "01-01-2025-00-00").1
    (Or.inr (Or.inl hm))
  exact ⟨h.1, h.2 FileKind.jsonSummary _⟩

/-- C8: the train dataloader is configured with shuffling, so each epoch it
iterates in the order freshly drawn for that epoch (a permutation of the
record indices), while the test and eval dataloaders are configured without
shuffling and iterate in the original record order on every pass. -/
theorem C8_dataloader_order (draw : ℕ → List ℕ) (n : ℕ)
    (hdraw : ∀ e, (draw e).Perm (List.range n)) :
    (∀ epoch, train_dataloader_order draw n epoch = draw epoch ∧
      (train_dataloader_order draw n epoch).Perm (List.range n)) ∧
    (∀ epoch, test_dataloader_order draw n epoch = List.range n) ∧
    (∀ epoch, eval_dataloader_order draw n epoch = List.range n) :=
  ⟨fun e => ⟨rfl, hdraw e⟩, fun _ => rfl, fun _ => rfl⟩

/-- C8 witness: a concrete three-record dataset with a concrete per-epoch
draw. -/
theorem C8_dataloader_order_witness :
    train_dataloader_order
        (fun e => if e % 2 = 0 then [2, 0, 1] else [1, 0, 2]) 3 1
      = [1, 0, 2] ∧
    test_dataloader_order
        (fun e => if e % 2 = 0 then [2, 0, 1] else [1, 0, 2]) 3 1
      = [0, 1, 2] ∧
    eval_dataloader_order
        (fun e => if e % 2 = 0 then [2, 0, 1] else [1, 0, 2]) 3 1
      = [0, 1, 2] := by
  have h := C8_dataloader_order
    (fun e => if e % 2 = 0 then [2, 0, 1] else [1, 0, 2]) 3
    (fun e => by
      by_cases he : e % 2 = 0 <;> simp only [he, if_true, if_false] <;> decide)
  refine ⟨(h.1 1).1.trans (by decide), ?_, ?_⟩
  · rw [h.2.1 1]
    decide
  · rw [h.2.2 1]
    decide

/-- C9: the run summary is serialized with 4-space indentation to a file whose
name embeds the day-month-year-hour-minute timestamp (one-minute resolution:
the file name does not depend on the seconds), the dataset identifier and the
epoch count, in the pattern
`results/` timestamp `-conjunto` id `-` epochs `-epochs.json`. -/
theorem C9_summary_file (t u : Moment) (c : String) (E : ℕ)
    (h : t.day = u.day ∧ t.month = u.month ∧ t.year = u.year ∧
      t.hour = u.hour ∧ t.minute = u.minute) :
    strftime_d_m_Y_H_M t = strftime_d_m_Y_H_M u ∧
    jsonSummaryPath (strftime_d_m_Y_H_M t) c E
      = "results/" ++ strftime_d_m_Y_H_M t ++ "-conjunto" ++ c ++ "-" ++
          toString E ++ "-epochs.json" ∧
    json_dump_indent = 4 := by
  obtain ⟨h1, h2, h3, h4, h5⟩ := h
  refine ⟨?_, rfl, rfl⟩
  unfold strftime_d_m_Y_H_M
  rw [h1, h2, h3, h4, h5]

/-- C9 witness: two moments in the same minute but with different seconds get
the same timestamp, hence the same summary file name. -/
theorem C9_summary_file_witness :
    strftime_d_m_Y_H_M ⟨11, 10, 2026, 9, 30, 5⟩
      = strftime_d_m_Y_H_M ⟨11, 10, 2026, 9, 30, 59⟩ ∧
    json_dump_indent = 4 :=
  ⟨(C9_summary_file ⟨11, 10, 2026, 9, 30, 5⟩ ⟨11, 10, 2026, 9, 30, 59⟩
      "7" 5 (by decide)).1,
   (C9_summary_file ⟨11, 10, 2026, 9, 30, 5⟩ ⟨11, 10, 2026, 9, 30, 59⟩
      "7" 5 (by decide)).2.2⟩

/-- C10: the final validation accuracy recorded in the summary equals the sum
of the diagonal entries of the produced confusion matrix divided by the number
of eval records, both being computed from the same index-aligned
prediction/reference pairs of the eval partition. -/
theorem C10_validation_eq_trace_ratio (E : ℕ)
    (testBatches : ℕ → List LabelBatch) (evalBatches : List LabelBatch) :
    (runPipeline E testBatches evalBatches).validation_metric
      = ((traceCM (runPipeline E testBatches evalBatches).cm : ℕ) : ℚ)
          / (((runPipeline E testBatches evalBatches).eval_size : ℕ) : ℚ) := by
  simp only [runPipeline, epochLoop_eq, evalFold_eq, addBatches_eq]
  rw [traceCM_confusion_matrix]
  simp [MetricState.compute, MetricState.empty, accuracyScore]

end TextGrader
